import Mathlib

/-!
Verification of the client-management dashboard core: the free-text client
info processing, the filter pipeline of the agent-assignment table, the
delete gating, the one-shot migration script, and the REST client route.
JavaScript string operations are embedded as executable functions on the
character list underlying `String`, so that every definition evaluates by
kernel reduction.
-/

/-- Whitespace test used by the embedding of the JS string trim method
(space, tab, line feed, carriage return). -/
def jsIsWhitespace (c : Char) : Bool :=
  c == Char.ofNat 32 || c == Char.ofNat 9 || c == Char.ofNat 10 || c == Char.ofNat 13

/-- Embedding of the JS string trim method: drop leading and trailing
whitespace. -/
def jsTrim (s : String) : String :=
  String.mk (((s.data.dropWhile jsIsWhitespace).reverse.dropWhile jsIsWhitespace).reverse)

/-- Embedding of the JS string toLowerCase method (ASCII range, which is all
the source compares). -/
def jsToLower (s : String) : String :=
  String.mk (s.data.map Char.toLower)

/-- Does the pattern occur as a contiguous sublist?  Embedding of the JS
string includes method at the character-list level. -/
def listOccurs (pat : List Char) : List Char → Bool
  | [] => pat.isEmpty
  | c :: rest => pat.isPrefixOf (c :: rest) || listOccurs pat rest

/-- Embedding of the JS string includes method: `jsIncludes s pat` models
`s.includes(pat)`. -/
def jsIncludes (s pat : String) : Bool :=
  listOccurs pat.data s.data

/-- Splitting worker: scans the text left to right, cutting at every
non-overlapping occurrence of the separator.  The fuel argument (instantiated
with the text length, which bounds the number of steps) keeps the recursion
structural so the kernel can evaluate it. -/
def splitListAux (sep : List Char) : Nat → List Char → List Char → List (List Char)
  | 0, s, acc => [acc.reverse ++ s]
  | _ + 1, [], acc => [acc.reverse]
  | fuel + 1, x :: xs, acc =>
    if sep.isPrefixOf (x :: xs) then
      acc.reverse :: splitListAux sep fuel (List.drop (sep.length - 1) xs) []
    else
      splitListAux sep fuel xs (x :: acc)

/-- Embedding of the JS string split method for a non-empty separator:
`jsSplit s sep` models `s.split(sep)`. -/
def jsSplit (s sep : String) : List String :=
  (splitListAux sep.data s.data.length s.data []).map (fun l => String.mk l)

/-- Embedding of the JS array join method: `jsJoin sep parts` models
`parts.join(sep)`. -/
def jsJoin (sep : String) : List String → String
  | [] => ""
  | [x] => x
  | x :: y :: rest => x ++ sep ++ jsJoin sep (y :: rest)

/-- `extractAge` (agent-assignment dashboard): first run of decimal digits
found anywhere in the value via `ageText.match(/\d+/)`; the raw text when no
digit occurs. -/
def firstDigitRun : List Char → Option (List Char)
  | [] => none
  | c :: cs => if c.isDigit then some (c :: cs.takeWhile Char.isDigit) else firstDigitRun cs

/-- `extractAge` from the dashboard source. -/
def extractAge (ageText : String) : String :=
  match firstDigitRun ageText.data with
  | some run => String.mk run
  | none => ageText

/-- `cleanName` from the dashboard source: when the value contains " / " the
code keeps `nameText.split(" / ")[1]` trimmed, otherwise the trimmed value. -/
def cleanName (nameText : String) : String :=
  if jsIncludes nameText " / " then
    jsTrim (((jsSplit nameText " / ").drop 1).headD "")
  else
    jsTrim nameText

/-- Modelled from the spec wording of the name post-processing: "keep only
the text after the separator" — the entire remainder after the first " / ",
reassembled.  Comparison definition for the refinement claim about
`cleanName`; it is not part of the source. -/
def specNameAfterFirstSep (nameText : String) : String :=
  jsJoin " / " ((jsSplit nameText " / ").drop 1)

example : jsSplit "a / b / c" " / " = ["a", "b", "c"] := by decide
example : cleanName "user1 / Jane Roe" = "Jane Roe" := by decide
example : cleanName "a / b / c" = "b" := by decide
example : extractAge "41yrs old" = "41" := by decide
example : jsTrim "  x y  " = "x y" := by decide
example : jsIncludes "app name" "name" = true := by decide

/-- The record the text processing extracts before validation and
defaulting: the five local variables of `processClientInfo`, initially
empty. -/
structure ParsedFields where
  name : String
  age : String
  location : String
  work : String
  application : String
  deriving DecidableEq

/-- The initial state of the five extraction variables. -/
def emptyParsed : ParsedFields :=
  { name := "", age := "", location := "", work := "", application := "" }

/-- The key of a labeled line: the text before the first colon, trimmed and
lowercased (`line.split(":")`, first component). -/
def lineKey (line : String) : String :=
  jsToLower (jsTrim ((jsSplit line ":").headD ""))

/-- The value of a labeled line: the remaining components rejoined on ":"
(so colons inside the value survive), trimmed. -/
def lineValue (line : String) : String :=
  jsTrim (jsJoin ":" ((jsSplit line ":").drop 1))

/-- One iteration of the labeled-format loop of `processClientInfo`: lines
without a colon are skipped, otherwise the key is matched case-insensitively
by substring against the recognized labels in the source's if/else order. -/
def applyLine (r : ParsedFields) (line : String) : ParsedFields :=
  if !jsIncludes line ":" then r
  else
    let value := lineValue line
    let keyLower := lineKey line
    if jsIncludes keyLower "name" then { r with name := cleanName value }
    else if jsIncludes keyLower "age" then { r with age := extractAge value }
    else if jsIncludes keyLower "loc" then { r with location := value }
    else if jsIncludes keyLower "work" || jsIncludes keyLower "occupation" then
      { r with work := value }
    else if jsIncludes keyLower "app" then { r with application := value }
    else r

/-- The positional branch of `processClientInfo`: with at least two lines,
line 1 is the name, line 2 the age, lines 3 to 5, when present, location,
work and application; with fewer than two lines every field stays empty. -/
def positionalParse (lines : List String) : ParsedFields :=
  if lines.length ≥ 2 then
    { name := cleanName (jsTrim (lines.headD ""))
      age := extractAge (jsTrim ((lines.drop 1).headD ""))
      location := if lines.length ≥ 3 then jsTrim ((lines.drop 2).headD "") else ""
      work := if lines.length ≥ 4 then jsTrim ((lines.drop 3).headD "") else ""
      application := if lines.length ≥ 5 then jsTrim ((lines.drop 4).headD "") else "" }
  else emptyParsed

/-- Field extraction of `processClientInfo` over the non-empty lines: the
labeled branch is taken as soon as any line contains a colon, otherwise the
positional branch. -/
def parseFields (lines : List String) : ParsedFields :=
  if lines.any (fun line => jsIncludes line ":") then
    lines.foldl applyLine emptyParsed
  else
    positionalParse lines

/-- Field extraction from the raw pasted text: split on newlines, keep the
lines whose trim is non-empty, extract. -/
def parseText (text : String) : ParsedFields :=
  parseFields ((jsSplit text "\n").filter (fun line => jsTrim line != ""))

/-- The record handed to the store by `processClientInfo` on success. -/
structure NewClientFields where
  name : String
  age : String
  location : String
  work : String
  application : String
  assignedAgent : String
  date : String
  deriving DecidableEq

/-- Outcome of `processClientInfo`: a destructive error toast (the input is
left for correction and no record is created), or a created record. -/
inductive ProcessOutcome where
  | validationError (description : String)
  | created (client : NewClientFields)
  deriving DecidableEq

/-- Does the outcome create a record? -/
def createsRecord : ProcessOutcome → Bool
  | .created _ => true
  | .validationError _ => false

/-- JS `x || "Unknown"` defaulting of the optional parsed fields. -/
def orUnknown (s : String) : String :=
  if s = "" then "Unknown" else s

/-- `currentAgent ? currentAgent.charAt(0).toUpperCase() + currentAgent.slice(1) : ""`. -/
def capitalizeAgent (currentAgent : String) : String :=
  if currentAgent = "" then ""
  else String.mk ((currentAgent.data.headD (Char.ofNat 97)).toUpper :: currentAgent.data.tail)

/-- `processClientInfo` from the dashboard source as a function of the
pasted text, the acting agent's identifier, and today's date string: the
empty-input pre-check, field extraction, the name/age validation, and the
construction of the new client with `"Unknown"` defaults. -/
def processClientInfo (clientText : String) (currentAgent : String) (today : String) :
    ProcessOutcome :=
  if jsTrim clientText = "" then .validationError "Please enter client information"
  else
    let fields := parseText clientText
    if fields.name = "" ∨ fields.age = "" then .validationError "Name and age are required"
    else .created {
      name := fields.name
      age := fields.age
      location := orUnknown fields.location
      work := orUnknown fields.work
      application := orUnknown fields.application
      assignedAgent := capitalizeAgent currentAgent
      date := today }

example : parseText "Name: Jane / Smith\nAge: 41yrs old\nLoc: NY" =
    { name := "Smith", age := "41", location := "NY", work := "", application := "" } := by
  decide
example : parseText "John Doe\n35\nLA\nEngineer\nTanTan" =
    { name := "John Doe", age := "35", location := "LA", work := "Engineer",
      application := "TanTan" } := by decide
example : processClientInfo "" "kyrie" "2024-01-05" =
    .validationError "Please enter client information" := by decide
example : processClientInfo "OnlyOneLine" "kyrie" "2024-01-05" =
    .validationError "Name and age are required" := by decide
example : processClientInfo "Name: Jo\nAge: 7" "kyrie" "2024-01-05" =
    .created { name := "Jo", age := "7", location := "Unknown", work := "Unknown",
               application := "Unknown", assignedAgent := "Kyrie", date := "2024-01-05" } := by
  decide

/-- A row of the agent-assignment table as held in component state. -/
structure ClientAssignment where
  id : String
  name : String
  age : String
  location : String
  work : String
  application : String
  assignedAgent : String
  date : String
  deriving DecidableEq

/-- The two observations the filter effect makes of a JS `Date`:
`getFullYear()` and `getMonth()` (months are 0-based, January = 0). -/
structure JSDate where
  year : Int
  month : Nat
  deriving DecidableEq

/-- The `monthMap` record of the filter effect: three-letter month codes to
0-based month indices. -/
def monthMap : List (String × Nat) :=
  [("jan", 0), ("feb", 1), ("mar", 2), ("apr", 3), ("may", 4), ("jun", 5),
   ("jul", 6), ("aug", 7), ("sep", 8), ("oct", 9), ("nov", 10), ("dec", 11)]

/-- The month-filter predicate of the filter effect, for a non-sentinel
month filter: "current", "previous" (with the December wrap when the current
month is January), or a specific month code looked up in `monthMap` (an
unrecognized code compares the month against `undefined` and keeps
nothing). -/
def monthFilterKeep (monthFilter : String) (clientDate currentDate : JSDate) : Bool :=
  if monthFilter = "current" then
    clientDate.month == currentDate.month && clientDate.year == currentDate.year
  else if monthFilter = "previous" then
    let prevMonth : Nat := if currentDate.month == 0 then 11 else currentDate.month - 1
    let prevMonthYear : Int :=
      if currentDate.month == 0 then currentDate.year - 1 else currentDate.year
    clientDate.month == prevMonth && clientDate.year == prevMonthYear
  else
    match monthMap.lookup monthFilter with
    | some m => clientDate.month == m
    | none => false

/-- The search predicate of the filter effect: the lowercased query occurs
in any of the five searched fields, lowercased. -/
def searchMatches (query : String) (c : ClientAssignment) : Bool :=
  jsIncludes (jsToLower c.name) query ||
  jsIncludes (jsToLower c.location) query ||
  jsIncludes (jsToLower c.work) query ||
  jsIncludes (jsToLower c.application) query ||
  jsIncludes (jsToLower c.assignedAgent) query

/-- The filter effect of the dashboard: search, then the three categorical
filters, then the month filter, each applied only when its control is away
from its sentinel value.  `toDate` stands for the ambient `new Date(string)`
conversion and `currentDate` for `new Date()`. -/
def applyFilters (toDate : String → JSDate) (clients : List ClientAssignment)
    (searchQuery locationFilter applicationFilter agentFilter monthFilter : String)
    (currentDate : JSDate) : List ClientAssignment :=
  let result := clients
  let result :=
    if searchQuery ≠ "" then result.filter (searchMatches (jsToLower searchQuery)) else result
  let result :=
    if locationFilter ≠ "all-locations" then
      result.filter (fun c => jsToLower c.location == locationFilter)
    else result
  let result :=
    if applicationFilter ≠ "all-applications" then
      result.filter (fun c => jsToLower c.application == applicationFilter)
    else result
  let result :=
    if agentFilter ≠ "all-agents" then
      result.filter (fun c => jsToLower c.assignedAgent == agentFilter)
    else result
  let result :=
    if monthFilter ≠ "all-months" then
      result.filter (fun c => monthFilterKeep monthFilter (toDate c.date) currentDate)
    else result
  result

/-- Outcome reported by the delete handler. -/
inductive DeleteOutcome where
  | permissionDenied
  | deleted
  deriving DecidableEq

/-- The three collections a delete can touch: the in-memory list, the
persisted fallback store, and the remote collection. -/
structure StoreState where
  clients : List ClientAssignment
  localStore : List ClientAssignment
  remote : List ClientAssignment
  deriving DecidableEq

/-- `handleDeleteClient` from the dashboard source: the admin gate returns
before any mutation; otherwise the record is removed from the fallback store
(unauthenticated) or the remote collection (authenticated). -/
def handleDeleteClient (isAdmin : Bool) (authenticated : Bool) (st : StoreState)
    (clientId : String) : StoreState × DeleteOutcome :=
  if !isAdmin then (st, .permissionDenied)
  else if !authenticated then
    let updated := st.clients.filter (fun c => c.id != clientId)
    ({ st with clients := updated, localStore := updated }, .deleted)
  else
    ({ st with remote := st.remote.filter (fun c => c.id != clientId) }, .deleted)

example :
    handleDeleteClient false true
      { clients := [], localStore := [], remote := [] } "x" =
      ({ clients := [], localStore := [], remote := [] }, .permissionDenied) := by decide

/-- A value placed in a migrated document: a passed-through string, a JS
`Date` built from a source string, the current time (`new Date()` with no
argument), `null`, or the Firestore server-timestamp sentinel. -/
inductive MigValue where
  | str (s : String)
  | dateOf (s : String)
  | dateNow
  | nullVal
  | serverTS
  deriving DecidableEq

/-- JS truthiness of an optional string field read from parsed JSON:
absent and the empty string are falsy. -/
def jsTruthyOptStr : Option String → Bool
  | none => false
  | some s => s != ""

/-- `x ? new Date(x) : null` (the clients' kycDate pattern). -/
def jsDateOrNull (d : Option String) : MigValue :=
  if jsTruthyOptStr d then .dateOf (d.getD "") else .nullVal

/-- `x ? new Date(x) : new Date()` (the date pattern of orders, deposits,
withdrawals and order requests). -/
def jsDateOrNow (d : Option String) : MigValue :=
  if jsTruthyOptStr d then .dateOf (d.getD "") else .dateNow

/-- A client element of the fallback-store "clients" array, as the migration
reads it. -/
structure SourceClient where
  shopId : String
  clientName : String
  agent : String
  status : String
  kycDate : Option String
  notes : Option String

/-- The document the migration writes to the remote "clients" collection. -/
structure MigClientDoc where
  shopId : MigValue
  clientName : MigValue
  agent : MigValue
  kycDate : MigValue
  status : MigValue
  notes : MigValue
  createdAt : MigValue
  updatedAt : MigValue
  deriving DecidableEq

/-- The clients insert of `migrateData`. -/
def migrateClientDoc (c : SourceClient) : MigClientDoc :=
  { shopId := .str c.shopId
    clientName := .str c.clientName
    agent := .str c.agent
    kycDate := jsDateOrNull c.kycDate
    status := .str c.status
    notes := .str (c.notes.getD "")
    createdAt := .serverTS
    updatedAt := .serverTS }

/-- An order element of the fallback-store "orders" array. -/
structure SourceOrder where
  orderId : String
  shopId : String
  clientName : String
  agent : String
  date : Option String
  location : String
  price : String
  status : String

/-- The document the migration writes to the remote "orders" collection. -/
structure MigOrderDoc where
  orderId : MigValue
  shopId : MigValue
  clientName : MigValue
  agent : MigValue
  date : MigValue
  location : MigValue
  price : MigValue
  status : MigValue
  createdAt : MigValue
  updatedAt : MigValue
  deriving DecidableEq

/-- The orders insert of `migrateData`. -/
def migrateOrderDoc (o : SourceOrder) : MigOrderDoc :=
  { orderId := .str o.orderId
    shopId := .str o.shopId
    clientName := .str o.clientName
    agent := .str o.agent
    date := jsDateOrNow o.date
    location := .str o.location
    price := .str o.price
    status := .str o.status
    createdAt := .serverTS
    updatedAt := .serverTS }

/-- A deposit element of the fallback-store "deposits" array. -/
structure SourceDeposit where
  depositId : String
  shopId : String
  clientName : String
  agent : String
  date : Option String
  amount : String
  paymentMode : String

/-- The document the migration writes to the remote "deposits" collection. -/
structure MigDepositDoc where
  depositId : MigValue
  shopId : MigValue
  clientName : MigValue
  agent : MigValue
  date : MigValue
  amount : MigValue
  paymentMode : MigValue
  createdAt : MigValue
  updatedAt : MigValue
  deriving DecidableEq

/-- The deposits insert of `migrateData`. -/
def migrateDepositDoc (d : SourceDeposit) : MigDepositDoc :=
  { depositId := .str d.depositId
    shopId := .str d.shopId
    clientName := .str d.clientName
    agent := .str d.agent
    date := jsDateOrNow d.date
    amount := .str d.amount
    paymentMode := .str d.paymentMode
    createdAt := .serverTS
    updatedAt := .serverTS }

/-- A withdrawal element of the fallback-store "withdrawals" array. -/
structure SourceWithdrawal where
  withdrawalId : String
  shopId : String
  clientName : String
  agent : String
  date : Option String
  amount : String
  paymentMode : String

/-- The document the migration writes to the remote "withdrawals"
collection. -/
structure MigWithdrawalDoc where
  withdrawalId : MigValue
  shopId : MigValue
  clientName : MigValue
  agent : MigValue
  date : MigValue
  amount : MigValue
  paymentMode : MigValue
  createdAt : MigValue
  updatedAt : MigValue
  deriving DecidableEq

/-- The withdrawals insert of `migrateData`. -/
def migrateWithdrawalDoc (w : SourceWithdrawal) : MigWithdrawalDoc :=
  { withdrawalId := .str w.withdrawalId
    shopId := .str w.shopId
    clientName := .str w.clientName
    agent := .str w.agent
    date := jsDateOrNow w.date
    amount := .str w.amount
    paymentMode := .str w.paymentMode
    createdAt := .serverTS
    updatedAt := .serverTS }

/-- An order-request element of the fallback-store "orderRequests" array. -/
structure SourceOrderRequest where
  shopId : String
  clientName : String
  agent : String
  date : Option String
  location : String
  price : String
  status : String
  remarks : Option String
  createdAt : String

/-- The document the migration writes to the remote "orderRequests"
collection.  The source sets `createdAt: new Date(request.createdAt)`, not a
server timestamp. -/
structure MigOrderRequestDoc where
  shopId : MigValue
  clientName : MigValue
  agent : MigValue
  date : MigValue
  location : MigValue
  price : MigValue
  status : MigValue
  remarks : MigValue
  createdAt : MigValue
  updatedAt : MigValue
  deriving DecidableEq

/-- The order-requests insert of `migrateData`. -/
def migrateOrderRequestDoc (r : SourceOrderRequest) : MigOrderRequestDoc :=
  { shopId := .str r.shopId
    clientName := .str r.clientName
    agent := .str r.agent
    date := jsDateOrNow r.date
    location := .str r.location
    price := .str r.price
    status := .str r.status
    remarks := .str (r.remarks.getD "")
    createdAt := .dateOf r.createdAt
    updatedAt := .serverTS }

/-- Read a property of a JS object represented as an ordered key/value
list: the first entry with the key. -/
def objGet (k : String) : List (String × String) → Option String
  | [] => none
  | p :: rest => if p.1 = k then some p.2 else objGet k rest

/-- Assign a property of a JS object: overwrite in place when the key
exists, append otherwise. -/
def objSet (obj : List (String × String)) (k : String) (v : String) :
    List (String × String) :=
  if obj.any (fun p => p.1 = k) then
    obj.map (fun p => if p.1 = k then (k, v) else p)
  else obj ++ [(k, v)]

/-- Spread one object into another, as a JS object literal evaluates
`{ ...base, ...fields }`: each property of `fields` is assigned in order. -/
def spreadInto (base fields : List (String × String)) : List (String × String) :=
  fields.foldl (fun acc kv => objSet acc kv.1 kv.2) base

/-- The object GET /clients builds per document:
`{ id: doc.id, ...doc.data() }` — the key property is written first, then
every data field is spread over it. -/
def clientResponseObject (docId : String) (data : List (String × String)) :
    List (String × String) :=
  spreadInto [("id", docId)] data

/-- The authenticated user as the admin effect sees it: the auth provider
may leave the email absent. -/
structure AuthUser where
  email : Option String

/-- The hardcoded administrator email list of the admin effect. -/
def adminEmails : List String :=
  ["admin@example.com", "manager@example.com"]

/-- The isAdmin effect of the dashboard:
`adminEmails.includes(user.email || "") || user.email?.includes("admin") || false`
for a signed-in user, false otherwise. -/
def computeIsAdmin : Option AuthUser → Bool
  | none => false
  | some u =>
    adminEmails.contains (u.email.getD "") ||
    (u.email.map (fun e => jsIncludes e "admin")).getD false

example : computeIsAdmin (some { email := some "bigadmin@corp.io" }) = true := by decide
example : computeIsAdmin (some { email := some "user@corp.io" }) = false := by decide
example : computeIsAdmin (some { email := none }) = false := by decide
example : objGet "id" (clientResponseObject "K" [("a", "1"), ("id", "X")]) = some "X" := by
  decide

/-- The five assignable fields of the labeled-format loop. -/
inductive ParseField where
  | name
  | age
  | location
  | work
  | application
  deriving DecidableEq

/-- Write one extraction field. -/
def setField (r : ParsedFields) (f : ParseField) (v : String) : ParsedFields :=
  match f with
  | .name => { r with name := v }
  | .age => { r with age := v }
  | .location => { r with location := v }
  | .work => { r with work := v }
  | .application => { r with application := v }

/-- Which field (with which processed value) a line assigns, following the
same label-matching chain as `applyLine`; `none` for skipped or unmatched
lines. -/
def lineUpdate (line : String) : Option (ParseField × String) :=
  if !jsIncludes line ":" then none
  else
    let value := lineValue line
    let keyLower := lineKey line
    if jsIncludes keyLower "name" then some (.name, cleanName value)
    else if jsIncludes keyLower "age" then some (.age, extractAge value)
    else if jsIncludes keyLower "loc" then some (.location, value)
    else if jsIncludes keyLower "work" || jsIncludes keyLower "occupation" then
      some (.work, value)
    else if jsIncludes keyLower "app" then some (.application, value)
    else none

/-- Perform the assignment computed by `lineUpdate`. -/
def applyUpdate (r : ParsedFields) : Option (ParseField × String) → ParsedFields
  | none => r
  | some (f, v) => setField r f v

/-- Two line assignments do not conflict: they touch different fields, or
write the same value. -/
def updCompatible : Option (ParseField × String) → Option (ParseField × String) → Bool
  | some (f, v), some (g, w) => f != g || v == w
  | _, _ => true

theorem applyLine_eq_applyUpdate (r : ParsedFields) (line : String) :
    applyLine r line = applyUpdate r (lineUpdate line) := by
  unfold applyLine lineUpdate
  by_cases h1 : jsIncludes line ":"
  · simp only [h1, Bool.not_true, Bool.false_eq_true, if_false]
    by_cases h2 : jsIncludes (lineKey line) "name"
    · simp [h2, applyUpdate, setField]
    · by_cases h3 : jsIncludes (lineKey line) "age"
      · simp [h2, h3, applyUpdate, setField]
      · by_cases h4 : jsIncludes (lineKey line) "loc"
        · simp [h2, h3, h4, applyUpdate, setField]
        · by_cases h5 :
            (jsIncludes (lineKey line) "work" || jsIncludes (lineKey line) "occupation") = true
          · simp [h2, h3, h4, h5, applyUpdate, setField]
          · by_cases h6 : jsIncludes (lineKey line) "app"
            · simp [h2, h3, h4, h5, h6, applyUpdate, setField]
            · simp [h2, h3, h4, h5, h6, applyUpdate]
  · simp [h1, applyUpdate]

theorem setField_comm (r : ParsedFields) (f g : ParseField) (v w : String) (h : f ≠ g) :
    setField (setField r f v) g w = setField (setField r g w) f v := by
  cases f <;> cases g <;> first | rfl | exact absurd rfl h

theorem applyUpdate_comm (z : ParsedFields) (u1 u2 : Option (ParseField × String))
    (h : updCompatible u1 u2 = true) :
    applyUpdate (applyUpdate z u1) u2 = applyUpdate (applyUpdate z u2) u1 := by
  match u1, u2 with
  | none, none => rfl
  | none, some (g, w) => rfl
  | some (f, v), none => rfl
  | some (f, v), some (g, w) =>
    by_cases hfg : f = g
    · subst hfg
      by_cases hvw : v = w
      · subst hvw; rfl
      · simp [updCompatible, hvw] at h
    · exact setField_comm z f g v w hfg

theorem applyLine_comm_of_compatible (x y : String)
    (h : updCompatible (lineUpdate x) (lineUpdate y) = true) (z : ParsedFields) :
    applyLine (applyLine z x) y = applyLine (applyLine z y) x := by
  rw [applyLine_eq_applyUpdate z x, applyLine_eq_applyUpdate z y,
    applyLine_eq_applyUpdate (applyUpdate z (lineUpdate x)) y,
    applyLine_eq_applyUpdate (applyUpdate z (lineUpdate y)) x]
  exact applyUpdate_comm z (lineUpdate x) (lineUpdate y) h

theorem perm_any_eq {α : Type} {l1 l2 : List α} (hp : l1.Perm l2) (p : α → Bool) :
    l1.any p = l2.any p := by
  cases h1 : l1.any p <;> cases h2 : l2.any p
  · rfl
  · obtain ⟨x, hx, hpx⟩ := List.any_eq_true.mp h2
    have := List.any_eq_true.mpr ⟨x, hp.mem_iff.mpr hx, hpx⟩
    rw [h1] at this
    exact this
  · obtain ⟨x, hx, hpx⟩ := List.any_eq_true.mp h1
    have := List.any_eq_true.mpr ⟨x, hp.mem_iff.mp hx, hpx⟩
    rw [h2] at this
    exact this.symm
  · rfl

theorem splitListAux_single_no_occ (c : Char) (fuel : Nat) :
    ∀ (l acc : List Char), c ∉ l → splitListAux [c] fuel l acc = [acc.reverse ++ l] := by
  induction fuel with
  | zero => intro l acc _; rfl
  | succ n ih =>
    intro l acc hl
    cases l with
    | nil => simp [splitListAux]
    | cons x xs =>
      have hcx : ¬c = x := fun h => hl (h ▸ List.mem_cons_self x xs)
      have hpre : [c].isPrefixOf (x :: xs) = false := by
        simp [List.isPrefixOf, hcx]
      have hxs : c ∉ xs := fun h => hl (List.mem_cons_of_mem x h)
      simp only [splitListAux, hpre, Bool.false_eq_true, if_false]
      rw [ih xs (x :: acc) hxs]
      simp

theorem jsSplit_newline_single (s : String) (h : Char.ofNat 10 ∉ s.data) :
    jsSplit s "\n" = [s] := by
  unfold jsSplit
  have hsep : ("\n" : String).data = [Char.ofNat 10] := rfl
  rw [hsep, splitListAux_single_no_occ (Char.ofNat 10) s.data.length s.data [] h]
  simp

theorem objGet_map_overwrite (k v : String) :
    ∀ obj : List (String × String), obj.any (fun p => p.1 = k) = true →
      objGet k (obj.map (fun p => if p.1 = k then (k, v) else p)) = some v := by
  intro obj
  induction obj with
  | nil => intro h; simp at h
  | cons q rest ih =>
    intro h
    by_cases hq : q.1 = k
    · simp [objGet, hq]
    · have hrest : rest.any (fun p => p.1 = k) = true := by
        rcases List.any_eq_true.mp h with ⟨p, hp, hpk⟩
        rcases List.mem_cons.mp hp with hqp | hmem
        · exact absurd (of_decide_eq_true (hqp ▸ hpk)) hq
        · exact List.any_eq_true.mpr ⟨p, hmem, hpk⟩
      simp only [List.map_cons, if_neg hq, objGet, hq, if_false]
      exact ih hrest

theorem objGet_append_absent (k v : String) :
    ∀ obj : List (String × String), (∀ p ∈ obj, p.1 ≠ k) →
      objGet k (obj ++ [(k, v)]) = some v := by
  intro obj
  induction obj with
  | nil => intro _; simp [objGet]
  | cons q rest ih =>
    intro hall
    have hq := hall q (List.mem_cons_self q rest)
    simp only [List.cons_append, objGet, hq, if_false]
    exact ih (fun p hp => hall p (List.mem_cons_of_mem q hp))

theorem objGet_objSet_same (obj : List (String × String)) (k v : String) :
    objGet k (objSet obj k v) = some v := by
  unfold objSet
  by_cases h : obj.any (fun p => p.1 = k) = true
  · rw [if_pos h]
    exact objGet_map_overwrite k v obj h
  · rw [if_neg h]
    refine objGet_append_absent k v obj ?_
    intro p hp hpk
    exact h (List.any_eq_true.mpr ⟨p, hp, decide_eq_true hpk⟩)

theorem objGet_map_overwrite_other (k k' v : String) (h : k' ≠ k) :
    ∀ obj : List (String × String),
      objGet k' (obj.map (fun p => if p.1 = k then (k, v) else p)) = objGet k' obj := by
  intro obj
  induction obj with
  | nil => rfl
  | cons q rest ih =>
    by_cases hq : q.1 = k
    · have hk : ¬k = k' := fun hh => h hh.symm
      have hq' : ¬q.1 = k' := hq ▸ hk
      simp only [List.map_cons, if_pos hq, objGet, if_neg hk, if_neg hq']
      exact ih
    · simp only [List.map_cons, if_neg hq, objGet]
      by_cases hq' : q.1 = k'
      · rw [if_pos hq', if_pos hq']
      · rw [if_neg hq', if_neg hq']
        exact ih

theorem objGet_append_other (k k' v : String) (h : k' ≠ k) :
    ∀ obj : List (String × String), objGet k' (obj ++ [(k, v)]) = objGet k' obj := by
  intro obj
  induction obj with
  | nil =>
    have hk : ¬k = k' := fun hh => h hh.symm
    simp [objGet, hk]
  | cons q rest ih =>
    simp only [List.cons_append, objGet]
    by_cases hq' : q.1 = k'
    · rw [if_pos hq', if_pos hq']
    · rw [if_neg hq', if_neg hq']
      exact ih

theorem objGet_objSet_other (obj : List (String × String)) (k k' v : String) (h : k' ≠ k) :
    objGet k' (objSet obj k v) = objGet k' obj := by
  unfold objSet
  by_cases hany : obj.any (fun p => p.1 = k) = true
  · rw [if_pos hany]
    exact objGet_map_overwrite_other k k' v h obj
  · rw [if_neg hany]
    exact objGet_append_other k k' v h obj

theorem spreadInto_objGet_of_absent (fields : List (String × String)) :
    ∀ (base : List (String × String)) (k : String), (∀ p ∈ fields, p.1 ≠ k) →
      objGet k (spreadInto base fields) = objGet k base := by
  induction fields with
  | nil => intro base k _; rfl
  | cons q rest ih =>
    intro base k hall
    have hq : q.1 ≠ k := hall q (List.mem_cons_self q rest)
    show objGet k (spreadInto (objSet base q.1 q.2) rest) = objGet k base
    rw [ih (objSet base q.1 q.2) k (fun p hp => hall p (List.mem_cons_of_mem q hp))]
    exact objGet_objSet_other base q.1 k q.2 (Ne.symm hq)

/-- C1 counterexample: for a name value with two " / " separators the code
keeps only the middle segment, not the entire text after the first
separator. -/
theorem cleanName_multi_sep_counterexample :
    jsIncludes "user1 / Jane Roe / extra" " / " = true ∧
    cleanName "user1 / Jane Roe / extra" ≠
      jsTrim (specNameAfterFirstSep "user1 / Jane Roe / extra") := by
  exact ⟨by decide, by decide⟩

/-- C1 (amended): when the parsed name value contains the separator " / "
exactly once — splitting on it yields exactly two parts — the resulting name
is the entire text after the separator, trimmed. -/
theorem cleanName_single_sep (s a b : String)
    (hinc : jsIncludes s " / " = true) (hsplit : jsSplit s " / " = [a, b]) :
    cleanName s = jsTrim (specNameAfterFirstSep s) := by
  unfold cleanName specNameAfterFirstSep
  rw [if_pos hinc, hsplit]
  rfl

/-- C1 witness. -/
theorem cleanName_single_sep_witness :
    cleanName "user1 / Jane Roe" = jsTrim (specNameAfterFirstSep "user1 / Jane Roe") :=
  cleanName_single_sep "user1 / Jane Roe" "user1" "Jane Roe" (by decide) (by decide)

/-- C3 counterexample: the order-requests insert stamps `createdAt` from the
source record, not with a server timestamp, and a clients record without a
kycDate is inserted with `null`, not the current time. -/
theorem migration_timestamp_counterexample :
    (migrateOrderRequestDoc
        { shopId := "s1", clientName := "c", agent := "a", date := none,
          location := "l", price := "9", status := "st", remarks := none,
          createdAt := "2024-01-01" }).createdAt ≠ MigValue.serverTS ∧
    (migrateClientDoc
        { shopId := "s1", clientName := "c", agent := "a", status := "st",
          kycDate := none, notes := none }).kycDate ≠ MigValue.dateNow := by
  exact ⟨by decide, by decide⟩

/-- C3 (amended): every record inserted by the migration carries a server
timestamp as `updatedAt`; `createdAt` is a server timestamp for clients,
orders, deposits and withdrawals, while an order request's `createdAt` is a
Date built from the source record's own createdAt; an absent date defaults
to the current time for orders, deposits, withdrawals and order requests,
while an absent clients kycDate is inserted as null. -/
theorem migration_timestamps (c : SourceClient) (o : SourceOrder) (d : SourceDeposit)
    (w : SourceWithdrawal) (r : SourceOrderRequest) :
    (migrateClientDoc c).createdAt = MigValue.serverTS ∧
    (migrateClientDoc c).updatedAt = MigValue.serverTS ∧
    (migrateOrderDoc o).createdAt = MigValue.serverTS ∧
    (migrateOrderDoc o).updatedAt = MigValue.serverTS ∧
    (migrateDepositDoc d).createdAt = MigValue.serverTS ∧
    (migrateDepositDoc d).updatedAt = MigValue.serverTS ∧
    (migrateWithdrawalDoc w).createdAt = MigValue.serverTS ∧
    (migrateWithdrawalDoc w).updatedAt = MigValue.serverTS ∧
    (migrateOrderRequestDoc r).createdAt = MigValue.dateOf r.createdAt ∧
    (migrateOrderRequestDoc r).updatedAt = MigValue.serverTS ∧
    (migrateOrderDoc { o with date := none }).date = MigValue.dateNow ∧
    (migrateDepositDoc { d with date := none }).date = MigValue.dateNow ∧
    (migrateWithdrawalDoc { w with date := none }).date = MigValue.dateNow ∧
    (migrateOrderRequestDoc { r with date := none }).date = MigValue.dateNow ∧
    (migrateClientDoc { c with kycDate := none }).kycDate = MigValue.nullVal :=
  ⟨rfl, rfl, rfl, rfl, rfl, rfl, rfl, rfl, rfl, rfl, rfl, rfl, rfl, rfl, rfl⟩

/-- C4: with the month filter "previous" and the current date in January of
some year, a record passes the month predicate exactly when its date's month
and year are December of the preceding year. -/
theorem monthFilter_previous_january (clientDate currentDate : JSDate)
    (hjan : currentDate.month = 0) :
    monthFilterKeep "previous" clientDate currentDate = true ↔
      clientDate.month = 11 ∧ clientDate.year = currentDate.year - 1 := by
  unfold monthFilterKeep
  rw [if_neg (by decide : ¬("previous" : String) = "current"), if_pos rfl]
  simp [hjan]

/-- C4 witness. -/
theorem monthFilter_previous_january_witness :
    monthFilterKeep "previous" { year := 2024, month := 11 } { year := 2025, month := 0 } =
      true :=
  (monthFilter_previous_january { year := 2024, month := 11 } { year := 2025, month := 0 }
    rfl).mpr (by exact ⟨rfl, by decide⟩)

/-- C5: with an empty search query and every categorical and month filter at
its sentinel value, the filter effect returns the input list unchanged. -/
theorem applyFilters_sentinel_identity (toDate : String → JSDate)
    (clients : List ClientAssignment) (currentDate : JSDate) :
    applyFilters toDate clients "" "all-locations" "all-applications" "all-agents"
      "all-months" currentDate = clients := by
  unfold applyFilters
  simp

/-- C6: a delete attempted without the administrator capability reports
permission denied and leaves the in-memory list, the fallback store and the
remote collection exactly as they were, whether or not a session exists. -/
theorem delete_without_admin_rejected (authenticated : Bool) (st : StoreState)
    (clientId : String) :
    handleDeleteClient false authenticated st clientId = (st, DeleteOutcome.permissionDenied) :=
  rfl

/-- C2 counterexample: a labeled block whose lines both label the name field
is not order-independent — the later line wins. -/
theorem labeled_reorder_counterexample :
    List.Perm ["Name: Alice", "Name: Bob"] ["Name: Bob", "Name: Alice"] ∧
    (["Name: Alice", "Name: Bob"].any (fun line => jsIncludes line ":") = true) ∧
    parseFields ["Name: Alice", "Name: Bob"] ≠ parseFields ["Name: Bob", "Name: Alice"] :=
  ⟨List.Perm.swap "Name: Bob" "Name: Alice" [], by decide, by decide⟩

/-- C2 (amended): for a labeled block in which no two lines write conflicting
values to the same field (their per-line assignments pairwise commute, which
holds in particular when every labeled line targets a distinct field),
parsing any permutation of the lines yields the same parsed record. -/
theorem labeled_parse_perm_invariant (l1 l2 : List String) (hp : l1.Perm l2)
    (hlab : l1.any (fun line => jsIncludes line ":") = true)
    (hcomp : ∀ x ∈ l1, ∀ y ∈ l1, updCompatible (lineUpdate x) (lineUpdate y) = true) :
    parseFields l1 = parseFields l2 := by
  unfold parseFields
  rw [if_pos hlab, if_pos (perm_any_eq hp (fun line => jsIncludes line ":") ▸ hlab)]
  exact hp.foldl_eq'
    (fun x hx y hy z => applyLine_comm_of_compatible x y (hcomp x hx y hy) z) emptyParsed

/-- C2 witness. -/
theorem labeled_parse_perm_invariant_witness :
    parseFields ["Name: Alice", "Age: 30"] = parseFields ["Age: 30", "Name: Alice"] :=
  labeled_parse_perm_invariant ["Name: Alice", "Age: 30"] ["Age: 30", "Name: Alice"]
    (List.Perm.swap "Age: 30" "Name: Alice" []) (by decide) (by decide)

/-- C7: the empty string is rejected by the empty-input pre-check, and any
single line without a colon is rejected by the name/age validation; in both
cases no record is created, and the extracted name and age are empty. -/
theorem insufficient_input_rejected (s currentAgent today : String)
    (hnl : Char.ofNat 10 ∉ s.data) (hcol : jsIncludes s ":" = false) :
    createsRecord (processClientInfo s currentAgent today) = false ∧
    (parseText s).name = "" ∧ (parseText s).age = "" ∧
    processClientInfo "" currentAgent today =
      ProcessOutcome.validationError "Please enter client information" := by
  have hsplit : jsSplit s "\n" = [s] := jsSplit_newline_single s hnl
  have hpt : parseText s = emptyParsed := by
    unfold parseText
    rw [hsplit]
    by_cases ht : jsTrim s = ""
    · have hb : (jsTrim s != "") = false := by simp [ht]
      rw [List.filter_cons, if_neg (by simp [hb])]
      rfl
    · have hb : (jsTrim s != "") = true := by simp [ht]
      rw [List.filter_cons, if_pos (by simp [hb]), List.filter_nil]
      unfold parseFields
      rw [if_neg (by simp [hcol])]
      rfl
  refine ⟨?_, by rw [hpt]; rfl, by rw [hpt]; rfl, rfl⟩
  unfold processClientInfo
  by_cases ht : jsTrim s = ""
  · rw [if_pos ht]
    rfl
  · rw [if_neg ht]
    simp only [hpt]
    rfl

/-- C7 witness. -/
theorem insufficient_input_rejected_witness :
    createsRecord (processClientInfo "OnlyOneLine" "kyrie" "2024-01-05") = false ∧
    (parseText "OnlyOneLine").name = "" :=
  ⟨(insufficient_input_rejected "OnlyOneLine" "kyrie" "2024-01-05" (by decide) (by decide)).1,
   (insufficient_input_rejected "OnlyOneLine" "kyrie" "2024-01-05" (by decide)
      (by decide)).2.1⟩

/-- C8: on a labeled line the value goes to exactly one field, chosen by the
fixed if/else priority name, age, "loc", "work"/"occupation", "app" — a key
matching an earlier label is assigned to that field no matter which later
labels it also contains, and all other fields of the record are untouched. -/
theorem labeled_key_priority (r : ParsedFields) (line : String)
    (hcolon : jsIncludes line ":" = true) :
    (jsIncludes (lineKey line) "name" = true →
      applyLine r line = { r with name := cleanName (lineValue line) }) ∧
    (jsIncludes (lineKey line) "name" = false → jsIncludes (lineKey line) "age" = true →
      applyLine r line = { r with age := extractAge (lineValue line) }) ∧
    (jsIncludes (lineKey line) "name" = false → jsIncludes (lineKey line) "age" = false →
      jsIncludes (lineKey line) "loc" = true →
      applyLine r line = { r with location := lineValue line }) ∧
    (jsIncludes (lineKey line) "name" = false → jsIncludes (lineKey line) "age" = false →
      jsIncludes (lineKey line) "loc" = false →
      (jsIncludes (lineKey line) "work" || jsIncludes (lineKey line) "occupation") = true →
      applyLine r line = { r with work := lineValue line }) ∧
    (jsIncludes (lineKey line) "name" = false → jsIncludes (lineKey line) "age" = false →
      jsIncludes (lineKey line) "loc" = false → jsIncludes (lineKey line) "work" = false →
      jsIncludes (lineKey line) "occupation" = false →
      jsIncludes (lineKey line) "app" = true →
      applyLine r line = { r with application := lineValue line }) := by
  refine ⟨fun h1 => ?_, fun h1 h2 => ?_, fun h1 h2 h3 => ?_, fun h1 h2 h3 h4 => ?_,
    fun h1 h2 h3 h4 h5 h6 => ?_⟩
  · simp [applyLine, hcolon, h1]
  · simp [applyLine, hcolon, h1, h2]
  · simp [applyLine, hcolon, h1, h2, h3]
  · simp [applyLine, hcolon, h1, h2, h3, h4]
  · simp [applyLine, hcolon, h1, h2, h3, h4, h5, h6]

/-- C8 witness: a key containing both "app" and "name" assigns to the name
field. -/
theorem labeled_key_priority_witness :
    applyLine emptyParsed "app name: Zed" =
      { emptyParsed with name := cleanName (lineValue "app name: Zed") } :=
  (labeled_key_priority emptyParsed "app name: Zed" (by decide)).1 (by decide)

theorem spreadInto_objGet_of_lookup (k v : String) :
    ∀ (fields base : List (String × String)), (fields.map Prod.fst).Nodup →
      objGet k fields = some v → objGet k (spreadInto base fields) = some v := by
  intro fields
  induction fields with
  | nil => intro base _ hv; cases hv
  | cons q rest ih =>
    intro base hnd hv
    by_cases hq : q.1 = k
    · have hv2 : q.2 = v := by
        rw [objGet, if_pos hq] at hv
        exact Option.some.inj hv
      have hhead : q.1 ∉ rest.map Prod.fst := (List.nodup_cons.mp hnd).1
      have hknot : ∀ p ∈ rest, p.1 ≠ k := by
        intro p hp hpk
        exact hhead (hq ▸ hpk ▸ List.mem_map_of_mem Prod.fst hp)
      show objGet k (spreadInto (objSet base q.1 q.2) rest) = some v
      rw [spreadInto_objGet_of_absent rest (objSet base q.1 q.2) k hknot, hq, hv2]
      exact objGet_objSet_same base k v
    · have hv' : objGet k rest = some v := by
        rw [objGet, if_neg hq] at hv
        exact hv
      exact ih (objSet base q.1 q.2) (List.nodup_cons.mp hnd).2 hv'

/-- C9: when a stored document's own data contains an "id" field, the object
GET /clients returns for it carries the data field's value as `id`: the
spread of `doc.data()` follows the `id: doc.id` property and overwrites
it. -/
theorem get_clients_id_shadowing (docId : String) (data : List (String × String))
    (hnd : (data.map Prod.fst).Nodup) (v : String) (hv : objGet "id" data = some v) :
    objGet "id" (clientResponseObject docId data) = some v :=
  spreadInto_objGet_of_lookup "id" v data [("id", docId)] hnd hv

/-- C9 witness. -/
theorem get_clients_id_shadowing_witness :
    objGet "id" (clientResponseObject "K" [("a", "1"), ("id", "X")]) = some "X" :=
  get_clients_id_shadowing "K" [("a", "1"), ("id", "X")] (by decide) "X" (by decide)

/-- C10: a user is computed as administrator exactly when signed in with an
email that is in the hardcoded list or contains the substring "admin"; in
particular no unauthenticated user (and no user without an email) is ever an
administrator. -/
theorem isAdmin_characterization (user : Option AuthUser) :
    computeIsAdmin user = true ↔
      ∃ e : String, user = some { email := some e } ∧
        (e ∈ adminEmails ∨ jsIncludes e "admin" = true) := by
  match user with
  | none => simp [computeIsAdmin]
  | some { email := none } =>
    constructor
    · intro h
      exact absurd h (by decide)
    · rintro ⟨e, he, -⟩
      cases he
  | some { email := some e } =>
    simp [computeIsAdmin, List.elem_iff, AuthUser.mk.injEq]
